import Mathlib

/-!
Verification of the AutoCut timeline composition engine (src/app.ts).

Times are microseconds, modelled as rationals (`ℚ`): the source stores them in
JS numbers and the playback clock accumulates fractional microsecond values
(`deltaMs * 1000 * playbackRate`).  Object identity (MP4Clip / OffscreenSprite
instances created with `new` and `clone()`) is modelled by natural-number tags
drawn from a fresh-name counter `nextId` carried in the application state.
-/

namespace AutoCut

/-- Structure `FilterSettings` from types/app.ts: independent visual adjustments.
Defaults: grayscale/sepia off, brightness/contrast 1.0, blur 0. -/
structure FilterSettings where
  grayscale : Bool
  sepia : Bool
  brightness : ℚ
  contrast : ℚ
  blur : ℚ
deriving DecidableEq

/-- The default (no-op) filter record used when sprites are created and reset. -/
def defaultFilters : FilterSettings :=
  { grayscale := false, sepia := false, brightness := 1, contrast := 1, blur := 0 }

/-- Structure `SpriteState` from types/app.ts.  `sourceOffset` models
`spriteState.sprite.time.offset` (the trim offset within the source clip);
`handleId` is the identity of the `OffscreenSprite` object held in the
`sprite` field; `clipId` is the identity of the `MP4Clip` in the `clip` field. -/
structure SpriteState where
  id : ℕ
  materialId : ℕ
  clipId : ℕ
  handleId : ℕ
  startTime : ℚ
  duration : ℚ
  sourceOffset : ℚ
  filters : FilterSettings
  playbackRate : ℚ
  opacity : ℚ
deriving DecidableEq

/-- Structure `Material` from types/app.ts (the fields the core uses). -/
structure Material where
  id : ℕ
  clipId : ℕ
  duration : ℚ
deriving DecidableEq

/-- The slice of `AppState` (types/app.ts) that the timeline engine reads and
writes: the sprite list, the selection, the virtual clock and the play flag,
plus the fresh-identity counter for `generateId()` / `new OffscreenSprite`. -/
structure AppState where
  sprites : List SpriteState
  selectedSpriteId : Option ℕ
  currentTime : ℚ
  isPlaying : Bool
  nextId : ℕ
deriving DecidableEq

/-- Failure modes of the edit operations (§7 of the spec); the source surfaces
them as `alert(...)` + early return with no mutation. -/
inductive EditError where
  | noSelection
  | spriteNotFound
  | invalidSplitPoint
deriving DecidableEq

/-- Function `getTotalDuration` (app.ts:1426): `startTime + duration` of the last
sprite, or 0 when the timeline is empty. -/
def getTotalDuration (st : AppState) : ℚ :=
  match st.sprites.getLast? with
  | none => 0
  | some lastSprite => lastSprite.startTime + lastSprite.duration

/-- Function `addMaterialToTimeline` (app.ts:283): appends a sprite at the end of the
last sprite (0 when empty) with `sprite.time.offset = 0`, duration from the
material's metadata, default filters, rate 1, opacity 1. -/
def addMaterialToTimeline (st : AppState) (material : Material) : AppState :=
  let startPosition : ℚ :=
    match st.sprites.getLast? with
    | none => 0
    | some lastSprite => lastSprite.startTime + lastSprite.duration
  let spriteState : SpriteState :=
    { id := st.nextId
      materialId := material.id
      clipId := material.clipId
      handleId := st.nextId + 1
      startTime := startPosition
      duration := material.duration
      sourceOffset := 0
      filters := defaultFilters
      playbackRate := 1
      opacity := 1 }
  { st with sprites := st.sprites ++ [spriteState], nextId := st.nextId + 2 }

/-- Models `state.sprites.splice(spriteIndex, 1, sprite1, sprite2)` where
`spriteIndex` is the first index whose id matches: replace the first sprite
with id `sel` by the two given sprites. -/
def replaceFirstByTwo (sel : ℕ) (a b : SpriteState) : List SpriteState → List SpriteState
  | [] => []
  | s :: rest => if s.id = sel then a :: b :: rest else s :: replaceFirstByTwo sel a b rest

/-- The `sprite1` record built by `splitClip` (app.ts:910-921): spread of the original
(inheriting materialId, clip, startTime, sourceOffset, filters, playbackRate,
opacity) with a fresh id, a freshly created `OffscreenSprite` handle, and
`duration = splitPoint`. -/
def splitFirst (sprite : SpriteState) (splitPoint : ℚ) (nid : ℕ) : SpriteState :=
  { sprite with
      id := nid
      handleId := nid + 2
      duration := splitPoint }

/-- The `sprite2` record built by `splitClip` (app.ts:923-936): spread of the original
with a fresh id and handle, `startTime = startTime + splitPoint`,
`duration = duration - splitPoint`, and — adding to the existing offset, not
replacing it — `sourceOffset = sourceOffset + splitPoint`. -/
def splitSecond (sprite : SpriteState) (splitPoint : ℚ) (nid : ℕ) : SpriteState :=
  { sprite with
      id := nid + 1
      handleId := nid + 3
      startTime := sprite.startTime + splitPoint
      duration := sprite.duration - splitPoint
      sourceOffset := sprite.sourceOffset + splitPoint }

/-- Function `splitClip` (app.ts:887).  Fails (alert + return, no mutation) when there
is no selection, the selected id is absent, or the playhead is not strictly
inside the selected sprite.  Otherwise replaces the sprite with
`splitFirst`/`splitSecond` at `splitPoint = currentTime - startTime` and
selects the first part. -/
def splitClip (st : AppState) : AppState × Option EditError :=
  match st.selectedSpriteId with
  | none => (st, some EditError.noSelection)
  | some sel =>
    match st.sprites.find? (fun s => s.id == sel) with
    | none => (st, some EditError.spriteNotFound)
    | some sprite =>
      if st.currentTime ≤ sprite.startTime ∨
          sprite.startTime + sprite.duration ≤ st.currentTime then
        (st, some EditError.invalidSplitPoint)
      else
        let splitPoint := st.currentTime - sprite.startTime
        let sprite1 := splitFirst sprite splitPoint st.nextId
        let sprite2 := splitSecond sprite splitPoint st.nextId
        ({ st with
            sprites := replaceFirstByTwo sel sprite1 sprite2 st.sprites
            selectedSpriteId := some sprite1.id
            nextId := st.nextId + 4 }, none)

/-- The shift applied by `deleteClip`'s loop to each sprite after the deleted
one: only `startTime` is decremented, every other field untouched. -/
def shiftBack (d : ℚ) (s : SpriteState) : SpriteState :=
  { s with startTime := s.startTime - d }

/-- Models `state.sprites.splice(spriteIndex, 1)` followed by the
`for (let i = spriteIndex; ...) startTime -= deletedDuration` loop: drop the
first sprite with id `sel` and shift every later sprite back by `d`. -/
def removeAndShift (sel : ℕ) (d : ℚ) : List SpriteState → List SpriteState
  | [] => []
  | s :: rest =>
    if s.id = sel then rest.map (shiftBack d) else s :: removeAndShift sel d rest

/-- Function `deleteClip` (app.ts:949), on the user-confirmed path: removes the selected
sprite, shifts every subsequent sprite's `startTime` back by the deleted
duration (never touching `sprite.time.offset`), and clears the selection. -/
def deleteClip (st : AppState) : AppState :=
  match st.selectedSpriteId with
  | none => st
  | some sel =>
    match st.sprites.find? (fun s => s.id == sel) with
    | none => st
    | some deletedSprite =>
      { st with
          sprites := removeAndShift sel deletedSprite.duration st.sprites
          selectedSpriteId := none }

/-- The active-sprite lookup shared by `playbackLoop` and `renderFrame`
(app.ts:546, app.ts:593): the first sprite whose half-open interval
`[startTime, startTime + duration)` contains `t`. -/
def findActiveSprite (sprites : List SpriteState) (t : ℚ) : Option SpriteState :=
  sprites.find? (fun s => decide (s.startTime ≤ t ∧ t < s.startTime + s.duration))

/-- One iteration of `playbackLoop` (app.ts:538) together with the decode
request made by the awaited `renderFrame` call (app.ts:589): returns the
updated state and, when a frame is rendered, the `sourceTime` passed to
`clip.tick`.  The loop exits untouched when not playing; it advances
`currentTime` by `deltaMs * 1000 * playbackRate` of the sprite active at the
pre-advance time (1.0 when none); reaching `getTotalDuration` clamps and
pauses; otherwise `renderFrame` resolves the sprite active at the advanced
time and requests
`sourceTime = offset + (currentTime - startTime) * playbackRate`. -/
def playbackTick (st : AppState) (deltaMs : ℚ) : AppState × Option ℚ :=
  if st.isPlaying = false then (st, none)
  else
    let active := findActiveSprite st.sprites st.currentTime
    let playbackRate : ℚ :=
      match active with
      | some s => s.playbackRate
      | none => 1
    let advanced := st.currentTime + deltaMs * 1000 * playbackRate
    if getTotalDuration st ≤ advanced then
      ({ st with currentTime := getTotalDuration st, isPlaying := false }, none)
    else
      match findActiveSprite st.sprites advanced with
      | none => ({ st with currentTime := advanced }, none)
      | some a =>
        ({ st with currentTime := advanced },
         some (a.sourceOffset + (advanced - a.startTime) * a.playbackRate))

/-- One delivered audio result inside `playAudioSamples` (app.ts:669):
`now` is `audioContext.currentTime` when the buffer is scheduled, `length`
the per-channel sample count, `sampleRate` the material's sample rate. -/
structure AudioChunk where
  now : ℚ
  length : ℕ
  sampleRate : ℕ
deriving DecidableEq

/-- The `playAudioSamples` scheduling step (app.ts:686-725), with the audio
context already running: zero-length buffers return early; otherwise
`duration = length / sampleRate`, the buffer starts at
`playTime = max(nextAudioTime, currentTime)` and the cursor becomes
`playTime + duration`.  Returns the scheduled (start, duration) if any
and the new `nextAudioTime`. -/
def playAudioSamples (nextAudioTime : ℚ) (c : AudioChunk) : Option (ℚ × ℚ) × ℚ :=
  if c.length = 0 then (none, nextAudioTime)
  else
    let duration : ℚ := (c.length : ℚ) / (c.sampleRate : ℚ)
    let playTime := max nextAudioTime c.now
    (some (playTime, duration), playTime + duration)

/-- The (start, duration) pairs scheduled by a sequence of
`playAudioSamples` calls threading the `nextAudioTime` cursor. -/
def scheduleAll (nextAudioTime : ℚ) : List AudioChunk → List (ℚ × ℚ)
  | [] => []
  | c :: rest =>
    match playAudioSamples nextAudioTime c with
    | (none, n) => scheduleAll n rest
    | (some pd, n) => pd :: scheduleAll n rest

/-- Function `hasActiveFilters` (app.ts:768): any filter differs from its default. -/
def hasActiveFilters (filters : FilterSettings) : Bool :=
  filters.grayscale || filters.sepia ||
    decide (filters.brightness ≠ 1) || decide (filters.contrast ≠ 1) ||
    decide (filters.blur > 0)

/-- The CSS segments appended by `buildFilterString` (app.ts:779), one per
enabled component; the source joins them with spaces and trims, so the
resulting string is nonempty exactly when this list is nonempty. -/
def buildFilterSegments (filters : FilterSettings) : List String :=
  (if filters.grayscale then ["grayscale(100%)"] else []) ++
  (if filters.sepia then ["sepia(100%)"] else []) ++
  (if filters.brightness ≠ 1 then
    ["brightness(" ++ toString filters.brightness ++ ")"] else []) ++
  (if filters.contrast ≠ 1 then
    ["contrast(" ++ toString filters.contrast ++ ")"] else []) ++
  (if filters.blur > 0 then ["blur(" ++ toString filters.blur ++ "px)"] else [])

/-- One handle registered with the `Combinator` during export: the identity of
the freshly created `OffscreenSprite`, the identity of the clip it wraps,
whether a `tickInterceptor` filter step was attached to that clip, and the
`time.offset` / `time.duration` / `opacity` it was configured with. -/
structure ExportEntry where
  handleId : ℕ
  clipId : ℕ
  wrapped : Bool
  offset : ℚ
  duration : ℚ
  opacity : ℚ
deriving DecidableEq

/-- The per-sprite export loop of `exportVideo` (app.ts:1288-1336), with
`nid` the fresh-identity supply: for each sprite, if `hasActiveFilters` then
`clipToUse = await clip.clone()` (a fresh clip identity) and
`applyFiltersToClip` attaches a `tickInterceptor` iff `buildFilterString` is
nonempty; otherwise the sprite's own clip is used untouched.  A new
`OffscreenSprite(clipToUse)` is created, configured with the sprite's
`sprite.time.offset`, `duration` and `opacity`, and added to the combinator
in loop order. -/
def exportSprites (nid : ℕ) : List SpriteState → List ExportEntry × ℕ
  | [] => ([], nid)
  | spriteState :: rest =>
    let hasFilters := hasActiveFilters spriteState.filters
    let clipToUse : ℕ := if hasFilters then nid else spriteState.clipId
    let n1 : ℕ := if hasFilters then nid + 1 else nid
    let wrapped : Bool :=
      hasFilters && !(buildFilterSegments spriteState.filters).isEmpty
    let exportSprite : ExportEntry :=
      { handleId := n1
        clipId := clipToUse
        wrapped := wrapped
        offset := spriteState.sourceOffset
        duration := spriteState.duration
        opacity := spriteState.opacity }
    let restResult := exportSprites (n1 + 1) rest
    (exportSprite :: restResult.1, restResult.2)

/-- The per-chunk progress reported during the stream-reading phase of
`exportVideo` (app.ts:1367): `50 + min((chunkCount / 100) * 49, 49)`. -/
def chunkProgress (chunkCount : ℕ) : ℚ :=
  50 + min ((chunkCount : ℚ) / 100 * 49) 49

/-- The filter record written by `applyFilterToSelectedSprite` (app.ts:1086):
all settings reset to defaults, then the named filter (if recognised)
enabled with its fixed strength; unknown names and "none" leave the reset. -/
def applyFilterNamed (filterName : String) : FilterSettings :=
  if filterName = "grayscale" then { defaultFilters with grayscale := true }
  else if filterName = "sepia" then { defaultFilters with sepia := true }
  else if filterName = "brightness" then { defaultFilters with brightness := 1.5 }
  else if filterName = "contrast" then { defaultFilters with contrast := 1.5 }
  else if filterName = "blur" then { defaultFilters with blur := 5 }
  else defaultFilters

/-- Mutate the first sprite matching `p` in place, as
`state.sprites.find(...)` followed by assignment does. -/
def updateFirst (p : SpriteState → Bool) (f : SpriteState → SpriteState) :
    List SpriteState → List SpriteState
  | [] => []
  | s :: rest => if p s then f s :: rest else s :: updateFirst p f rest

/-- Function `applyFilterToSelectedSprite` (app.ts:1086): no selection is a no-op;
otherwise the selected sprite's filters are replaced by
`applyFilterNamed filterName`. -/
def applyFilterToSelectedSprite (st : AppState) (filterName : String) : AppState :=
  match st.selectedSpriteId with
  | none => st
  | some sel =>
    { st with
        sprites := updateFirst (fun s => s.id == sel)
          (fun s => { s with filters := applyFilterNamed filterName }) st.sprites }

/-- The edit operations of §4.2, as invoked through the UI: selecting a sprite
and (for split) clicking the playhead position set `selectedSpriteId` /
`currentTime` before the tool runs. -/
inductive EditOp where
  | append (material : Material)
  | split (sel : ℕ) (atTime : ℚ)
  | delete (sel : ℕ)

/-- Apply one edit operation: `split` runs `splitClip` after selecting `sel`
and moving the playhead to `atTime`; `delete` runs `deleteClip` after
selecting `sel`. -/
def applyOp (st : AppState) (op : EditOp) : AppState :=
  match op with
  | .append material => addMaterialToTimeline st material
  | .split sel atTime =>
    (splitClip { st with selectedSpriteId := some sel, currentTime := atTime }).1
  | .delete sel => deleteClip { st with selectedSpriteId := some sel }

/-- The initial application state (app.ts:14): empty timeline. -/
def initialState : AppState :=
  { sprites := [], selectedSpriteId := none, currentTime := 0,
    isPlaying := false, nextId := 0 }

/-- Run a sequence of edit operations from the empty timeline. -/
def runOps (ops : List EditOp) : AppState :=
  ops.foldl applyOp initialState

/-- Invariant I2 between adjacent sprites: the next sprite starts exactly
where the previous one ends. -/
def contiguousRel (a b : SpriteState) : Prop :=
  b.startTime = a.startTime + a.duration

instance : DecidableRel contiguousRel := fun a b =>
  inferInstanceAs (Decidable (b.startTime = a.startTime + a.duration))

/-- Invariant I2 over the whole sprite sequence: no gaps, no overlaps. -/
def timelineContiguous (sprites : List SpriteState) : Prop :=
  List.Chain' contiguousRel sprites

instance (sprites : List SpriteState) : Decidable (timelineContiguous sprites) :=
  inferInstanceAs (Decidable (List.Chain' _ _))

/-- The first sprite (when any) sits at output time 0; together with I2 this
makes `getTotalDuration` the sum of all durations. -/
def firstStartsAtZero (sprites : List SpriteState) : Prop :=
  ∀ s ∈ sprites.head?, s.startTime = 0

instance (sprites : List SpriteState) : Decidable (firstStartsAtZero sprites) := by
  unfold firstStartsAtZero; infer_instance

/-- Count of filter settings differing from their defaults. -/
def nonDefaultCount (f : FilterSettings) : ℕ :=
  (if f.grayscale then 1 else 0) + (if f.sepia then 1 else 0) +
    (if f.brightness ≠ 1 then 1 else 0) + (if f.contrast ≠ 1 then 1 else 0) +
    (if f.blur ≠ 0 then 1 else 0)


/-- The `Array.findIndex` / `find` semantics: in a list decomposed before the
first sprite with the selected id, `find?` returns that sprite. -/
theorem find?_first (pre : List SpriteState) (sp : SpriteState) (post : List SpriteState)
    (sel : ℕ) (hid : sp.id = sel) (hpre : ∀ x ∈ pre, x.id ≠ sel) :
    (pre ++ sp :: post).find? (fun s => s.id == sel) = some sp := by
  induction pre with
  | nil =>
    simp only [List.nil_append]
    exact List.find?_cons_of_pos _ (by simp [hid])
  | cons x xs ih =>
    have hx : ¬ ((fun s : SpriteState => s.id == sel) x = true) := by
      simp only [beq_iff_eq]
      exact hpre x (List.mem_cons_self x xs)
    simp only [List.cons_append]
    rw [@List.find?_cons_of_neg _ (fun s => s.id == sel) x (xs ++ sp :: post) hx]
    exact ih fun y hy => hpre y (List.mem_cons_of_mem x hy)

/-- Conversely, a successful `find?` yields the first-match decomposition. -/
theorem find?_decomp (sel : ℕ) (sp : SpriteState) :
    ∀ xs : List SpriteState, xs.find? (fun s => s.id == sel) = some sp →
      ∃ pre post, xs = pre ++ sp :: post ∧ sp.id = sel ∧ ∀ x ∈ pre, x.id ≠ sel := by
  intro xs
  induction xs with
  | nil => intro h; exact absurd h (by simp)
  | cons x rest ih =>
    intro h
    by_cases hx : x.id = sel
    · rw [List.find?_cons_of_pos _ (by simpa using hx)] at h
      obtain rfl : x = sp := by injection h
      exact ⟨[], rest, rfl, hx, fun y hy => absurd hy (List.not_mem_nil y)⟩
    · rw [@List.find?_cons_of_neg _ (fun s => s.id == sel) x rest (by simpa using hx)] at h
      obtain ⟨pre, post, hdec, hspid, hpre⟩ := ih h
      refine ⟨x :: pre, post, by rw [hdec, List.cons_append], hspid, ?_⟩
      intro y hy
      rcases List.mem_cons.mp hy with h1 | h2
      · subst h1; exact hx
      · exact hpre y h2

/-- Running `splice(idx, 1, a, b)` at the first matching index, on the decomposed
list. -/
theorem replaceFirstByTwo_first (sel : ℕ) (a b : SpriteState) (pre : List SpriteState)
    (sp : SpriteState) (post : List SpriteState) (hid : sp.id = sel)
    (hpre : ∀ x ∈ pre, x.id ≠ sel) :
    replaceFirstByTwo sel a b (pre ++ sp :: post) = pre ++ a :: b :: post := by
  induction pre with
  | nil => simp [replaceFirstByTwo, hid]
  | cons x xs ih =>
    simp only [List.cons_append, replaceFirstByTwo,
      if_neg (hpre x (List.mem_cons_self x xs)), List.append_eq]
    rw [ih fun y hy => hpre y (List.mem_cons_of_mem x hy)]

/-- Running `splice(idx, 1)` plus the shift loop at the first matching index, on the
decomposed list. -/
theorem removeAndShift_first (sel : ℕ) (d : ℚ) (pre : List SpriteState)
    (sp : SpriteState) (post : List SpriteState) (hid : sp.id = sel)
    (hpre : ∀ x ∈ pre, x.id ≠ sel) :
    removeAndShift sel d (pre ++ sp :: post) = pre ++ post.map (shiftBack d) := by
  induction pre with
  | nil => simp [removeAndShift, hid]
  | cons x xs ih =>
    simp only [List.cons_append, removeAndShift,
      if_neg (hpre x (List.mem_cons_self x xs)), List.append_eq]
    rw [ih fun y hy => hpre y (List.mem_cons_of_mem x hy)]

/-- Running `splitClip` with no selection: alert and return, no mutation. -/
theorem splitClip_eq_noSelection (st : AppState) (h : st.selectedSpriteId = none) :
    splitClip st = (st, some EditError.noSelection) := by
  simp only [splitClip, h]

/-- Running `splitClip` when the selected id is not on the timeline: early return. -/
theorem splitClip_eq_notFound (st : AppState) (sel : ℕ)
    (h1 : st.selectedSpriteId = some sel)
    (h2 : st.sprites.find? (fun s => s.id == sel) = none) :
    splitClip st = (st, some EditError.spriteNotFound) := by
  simp only [splitClip, h1, h2]

/-- Running `splitClip` when the playhead is outside the sprite's open interval:
alert and return the state untouched. -/
theorem splitClip_eq_invalid (st : AppState) (sel : ℕ) (sp : SpriteState)
    (h1 : st.selectedSpriteId = some sel)
    (h2 : st.sprites.find? (fun s => s.id == sel) = some sp)
    (h3 : st.currentTime ≤ sp.startTime ∨
      sp.startTime + sp.duration ≤ st.currentTime) :
    splitClip st = (st, some EditError.invalidSplitPoint) := by
  simp only [splitClip, h1, h2]
  rw [if_pos h3]

/-- Running `splitClip` on the success path: the full state equation. -/
theorem splitClip_eq_success (st : AppState) (sel : ℕ) (sp : SpriteState)
    (h1 : st.selectedSpriteId = some sel)
    (h2 : st.sprites.find? (fun s => s.id == sel) = some sp)
    (h3 : ¬(st.currentTime ≤ sp.startTime ∨
      sp.startTime + sp.duration ≤ st.currentTime)) :
    splitClip st =
      ({ st with
          sprites := replaceFirstByTwo sel
            (splitFirst sp (st.currentTime - sp.startTime) st.nextId)
            (splitSecond sp (st.currentTime - sp.startTime) st.nextId)
            st.sprites
          selectedSpriteId := some st.nextId
          nextId := st.nextId + 4 }, none) := by
  simp only [splitClip, h1, h2, if_neg h3]
  rfl

/-- Running `deleteClip` with no selection: no mutation. -/
theorem deleteClip_eq_noSelection (st : AppState) (h : st.selectedSpriteId = none) :
    deleteClip st = st := by
  simp only [deleteClip, h]

/-- Running `deleteClip` when the selected id is not on the timeline: no mutation. -/
theorem deleteClip_eq_notFound (st : AppState) (sel : ℕ)
    (h1 : st.selectedSpriteId = some sel)
    (h2 : st.sprites.find? (fun s => s.id == sel) = none) :
    deleteClip st = st := by
  simp only [deleteClip, h1, h2]

/-- Running `deleteClip` on the success path: the full state equation. -/
theorem deleteClip_eq_success (st : AppState) (sel : ℕ) (sp : SpriteState)
    (h1 : st.selectedSpriteId = some sel)
    (h2 : st.sprites.find? (fun s => s.id == sel) = some sp) :
    deleteClip st =
      { st with
          sprites := removeAndShift sel sp.duration st.sprites
          selectedSpriteId := none } := by
  simp only [deleteClip, h1, h2]

/-- C1: for every sprite and every split time `t = st.currentTime` strictly
inside its interval, `splitClip` succeeds and replaces the sprite with
exactly two sprites: the first keeps `startTime` and `sourceOffset` and has
`duration = t - startTime`; the second has `startTime = t`,
`duration = originalDuration - (t - originalStartTime)` and
`sourceOffset = originalSourceOffset + (t - originalStartTime)`; both inherit
filters, opacity and playbackRate; the two durations sum exactly to the
original duration; and the selection moves to the first resulting sprite. -/
theorem split_spec (st : AppState) (sel : ℕ) (pre post : List SpriteState)
    (sp : SpriteState)
    (hselid : st.selectedSpriteId = some sel)
    (hdecomp : st.sprites = pre ++ sp :: post)
    (hid : sp.id = sel)
    (hpre : ∀ x ∈ pre, x.id ≠ sel)
    (hlo : sp.startTime < st.currentTime)
    (hhi : st.currentTime < sp.startTime + sp.duration) :
    ∃ s1 s2 : SpriteState,
      (splitClip st).2 = none ∧
      (splitClip st).1.sprites = pre ++ s1 :: s2 :: post ∧
      s1.startTime = sp.startTime ∧
      s1.sourceOffset = sp.sourceOffset ∧
      s1.duration = st.currentTime - sp.startTime ∧
      s2.startTime = st.currentTime ∧
      s2.duration = sp.duration - (st.currentTime - sp.startTime) ∧
      s2.sourceOffset = sp.sourceOffset + (st.currentTime - sp.startTime) ∧
      s1.filters = sp.filters ∧ s2.filters = sp.filters ∧
      s1.opacity = sp.opacity ∧ s2.opacity = sp.opacity ∧
      s1.playbackRate = sp.playbackRate ∧ s2.playbackRate = sp.playbackRate ∧
      s1.duration + s2.duration = sp.duration ∧
      (splitClip st).1.selectedSpriteId = some s1.id := by
  have hfind : st.sprites.find? (fun s => s.id == sel) = some sp := by
    rw [hdecomp]
    exact find?_first pre sp post sel hid hpre
  have hguard : ¬(st.currentTime ≤ sp.startTime ∨
      sp.startTime + sp.duration ≤ st.currentTime) := by
    push_neg
    exact ⟨hlo, hhi⟩
  have hsplit := splitClip_eq_success st sel sp hselid hfind hguard
  have hrep : replaceFirstByTwo sel
      (splitFirst sp (st.currentTime - sp.startTime) st.nextId)
      (splitSecond sp (st.currentTime - sp.startTime) st.nextId)
      st.sprites =
      pre ++ splitFirst sp (st.currentTime - sp.startTime) st.nextId ::
        splitSecond sp (st.currentTime - sp.startTime) st.nextId :: post := by
    rw [hdecomp]
    exact replaceFirstByTwo_first sel _ _ pre sp post hid hpre
  refine ⟨splitFirst sp (st.currentTime - sp.startTime) st.nextId,
    splitSecond sp (st.currentTime - sp.startTime) st.nextId,
    ?_, ?_, rfl, rfl, rfl, ?_, rfl, rfl, rfl, rfl, rfl, rfl, rfl, rfl, ?_, ?_⟩
  · rw [hsplit]
  · rw [hsplit]
    exact hrep
  · show sp.startTime + (st.currentTime - sp.startTime) = st.currentTime
    ring
  · show (st.currentTime - sp.startTime) +
      (sp.duration - (st.currentTime - sp.startTime)) = sp.duration
    ring
  · rw [hsplit]
    rfl

/-- C2: deleting the selected sprite removes exactly it, leaves the sprites
before it entirely unchanged, and maps each later sprite through `shiftBack`,
which decrements `startTime` by exactly the deleted sprite's duration and
changes no other field — in particular `sourceOffset` is untouched. -/
theorem delete_spec (st : AppState) (sel : ℕ) (pre post : List SpriteState)
    (sp : SpriteState)
    (hselid : st.selectedSpriteId = some sel)
    (hdecomp : st.sprites = pre ++ sp :: post)
    (hid : sp.id = sel)
    (hpre : ∀ x ∈ pre, x.id ≠ sel) :
    (deleteClip st).sprites = pre ++ post.map (shiftBack sp.duration) ∧
    ∀ x : SpriteState,
      (shiftBack sp.duration x).startTime = x.startTime - sp.duration ∧
      (shiftBack sp.duration x).duration = x.duration ∧
      (shiftBack sp.duration x).sourceOffset = x.sourceOffset ∧
      (shiftBack sp.duration x).filters = x.filters ∧
      (shiftBack sp.duration x).playbackRate = x.playbackRate ∧
      (shiftBack sp.duration x).opacity = x.opacity ∧
      (shiftBack sp.duration x).id = x.id ∧
      (shiftBack sp.duration x).materialId = x.materialId ∧
      (shiftBack sp.duration x).clipId = x.clipId ∧
      (shiftBack sp.duration x).handleId = x.handleId := by
  have hfind : st.sprites.find? (fun s => s.id == sel) = some sp := by
    rw [hdecomp]
    exact find?_first pre sp post sel hid hpre
  constructor
  · rw [deleteClip_eq_success st sel sp hselid hfind]
    show removeAndShift sel sp.duration st.sprites = _
    rw [hdecomp]
    exact removeAndShift_first sel sp.duration pre sp post hid hpre
  · intro x
    exact ⟨rfl, rfl, rfl, rfl, rfl, rfl, rfl, rfl, rfl, rfl⟩

/-- C4: splitting at a time not strictly inside the selected sprite
(including both endpoints) fails with `invalidSplitPoint` and performs no
mutation: the returned state is the input state itself, so the sprite list,
every sprite's fields and the selection are exactly as before the call. -/
theorem split_invalid_noop (st : AppState) (sel : ℕ) (sp : SpriteState)
    (hselid : st.selectedSpriteId = some sel)
    (hfind : st.sprites.find? (fun s => s.id == sel) = some sp)
    (hout : st.currentTime ≤ sp.startTime ∨
      sp.startTime + sp.duration ≤ st.currentTime) :
    splitClip st = (st, some EditError.invalidSplitPoint) :=
  splitClip_eq_invalid st sel sp hselid hfind hout

/-- Appending a sprite that starts where the last sprite ends preserves I2. -/
theorem timelineContiguous_addMaterialToTimeline (st : AppState) (material : Material)
    (h : timelineContiguous st.sprites) :
    timelineContiguous (addMaterialToTimeline st material).sprites := by
  show List.Chain' contiguousRel (st.sprites ++ [_])
  rw [List.chain'_append]
  refine ⟨h, List.chain'_singleton _, ?_⟩
  intro x hx y hy
  simp only [List.head?_cons, Option.mem_def, Option.some.injEq] at hy
  subst hy
  show (match st.sprites.getLast? with
    | none => (0 : ℚ)
    | some lastSprite => lastSprite.startTime + lastSprite.duration) =
    x.startTime + x.duration
  rw [Option.mem_def] at hx
  rw [hx]

/-- Replacing one sprite by two that tile exactly its interval preserves I2
on the decomposed list. -/
theorem chain'_split_replace (pre post : List SpriteState) (sp a b : SpriteState)
    (h : List.Chain' contiguousRel (pre ++ sp :: post))
    (ha : a.startTime = sp.startTime)
    (hab : b.startTime = a.startTime + a.duration)
    (hb : b.startTime + b.duration = sp.startTime + sp.duration) :
    List.Chain' contiguousRel (pre ++ a :: b :: post) := by
  rw [List.chain'_append] at h ⊢
  obtain ⟨h1, h2, h3⟩ := h
  rw [List.chain'_cons'] at h2
  obtain ⟨hlink, hpost⟩ := h2
  refine ⟨h1, ?_, ?_⟩
  · rw [List.chain'_cons]
    refine ⟨hab, ?_⟩
    rw [List.chain'_cons']
    refine ⟨?_, hpost⟩
    intro y hy
    have hy' := hlink y hy
    show y.startTime = b.startTime + b.duration
    rw [hb]
    exact hy'
  · intro x hx y hy
    simp only [List.head?_cons, Option.mem_def, Option.some.injEq] at hy
    subst hy
    have hx' := h3 x hx sp (by simp)
    show a.startTime = x.startTime + x.duration
    rw [ha]
    exact hx'

/-- Deleting a sprite and shifting the tail back by its duration preserves I2
on the decomposed list. -/
theorem chain'_delete_shift (pre post : List SpriteState) (sp : SpriteState)
    (h : List.Chain' contiguousRel (pre ++ sp :: post)) :
    List.Chain' contiguousRel (pre ++ post.map (shiftBack sp.duration)) := by
  rw [List.chain'_append] at h ⊢
  obtain ⟨h1, h2, h3⟩ := h
  rw [List.chain'_cons'] at h2
  obtain ⟨hlink, hpost⟩ := h2
  refine ⟨h1, ?_, ?_⟩
  · rw [List.chain'_map]
    apply List.Chain'.imp _ hpost
    intro x y hxy
    show (shiftBack sp.duration y).startTime =
      (shiftBack sp.duration x).startTime + (shiftBack sp.duration x).duration
    show y.startTime - sp.duration = (x.startTime - sp.duration) + x.duration
    rw [hxy]
    ring
  · intro x hx y hy
    rw [List.head?_map, Option.mem_def, Option.map_eq_some'] at hy
    obtain ⟨y0, hy0, rfl⟩ := hy
    have hl := hlink y0 hy0
    have hx' := h3 x hx sp (by simp)
    show y0.startTime - sp.duration = x.startTime + x.duration
    rw [hl, hx']
    ring

/-- I2 is preserved by `splitClip` in all cases. -/
theorem timelineContiguous_splitClip (st : AppState)
    (h : timelineContiguous st.sprites) :
    timelineContiguous (splitClip st).1.sprites := by
  cases hsel : st.selectedSpriteId with
  | none => rw [splitClip_eq_noSelection st hsel]; exact h
  | some sel =>
    cases hfind : st.sprites.find? (fun s => s.id == sel) with
    | none => rw [splitClip_eq_notFound st sel hsel hfind]; exact h
    | some sp =>
      by_cases hg : st.currentTime ≤ sp.startTime ∨
        sp.startTime + sp.duration ≤ st.currentTime
      · rw [splitClip_eq_invalid st sel sp hsel hfind hg]; exact h
      · rw [splitClip_eq_success st sel sp hsel hfind hg]
        obtain ⟨pre, post, hdec, hspid, hpre⟩ := find?_decomp sel sp st.sprites hfind
        show List.Chain' contiguousRel (replaceFirstByTwo sel _ _ st.sprites)
        rw [hdec, replaceFirstByTwo_first sel _ _ pre sp post hspid hpre]
        rw [hdec] at h
        apply chain'_split_replace pre post sp _ _ h
        · rfl
        · show sp.startTime + (st.currentTime - sp.startTime) =
            sp.startTime + (st.currentTime - sp.startTime)
          rfl
        · show (sp.startTime + (st.currentTime - sp.startTime)) +
            (sp.duration - (st.currentTime - sp.startTime)) =
            sp.startTime + sp.duration
          ring

/-- I2 is preserved by `deleteClip` in all cases. -/
theorem timelineContiguous_deleteClip (st : AppState)
    (h : timelineContiguous st.sprites) :
    timelineContiguous (deleteClip st).sprites := by
  cases hsel : st.selectedSpriteId with
  | none => rw [deleteClip_eq_noSelection st hsel]; exact h
  | some sel =>
    cases hfind : st.sprites.find? (fun s => s.id == sel) with
    | none => rw [deleteClip_eq_notFound st sel hsel hfind]; exact h
    | some sp =>
      rw [deleteClip_eq_success st sel sp hsel hfind]
      obtain ⟨pre, post, hdec, hspid, hpre⟩ := find?_decomp sel sp st.sprites hfind
      show List.Chain' contiguousRel (removeAndShift sel sp.duration st.sprites)
      rw [hdec, removeAndShift_first sel sp.duration pre sp post hspid hpre]
      rw [hdec] at h
      exact chain'_delete_shift pre post sp h

/-- I2 is preserved by every edit operation. -/
theorem timelineContiguous_applyOp (st : AppState) (op : EditOp)
    (h : timelineContiguous st.sprites) :
    timelineContiguous (applyOp st op).sprites := by
  cases op with
  | append material => exact timelineContiguous_addMaterialToTimeline st material h
  | split sel atTime =>
    exact timelineContiguous_splitClip
      { st with selectedSpriteId := some sel, currentTime := atTime } h
  | delete sel =>
    exact timelineContiguous_deleteClip { st with selectedSpriteId := some sel } h

/-- C3: for every sequence of append/split/delete operations starting from
the empty timeline, invariant I2 holds at every observable point: every
prefix of operations is itself such a sequence, and after running any
sequence all adjacent sprites satisfy
`sprite[i+1].startTime = sprite[i].startTime + sprite[i].duration`. -/
theorem contiguity_invariant (ops : List EditOp) :
    timelineContiguous (runOps ops).sprites := by
  suffices h : ∀ st : AppState, timelineContiguous st.sprites →
      timelineContiguous (ops.foldl applyOp st).sprites by
    exact h initialState List.chain'_nil
  induction ops with
  | nil => intro st h; exact h
  | cons op rest ih =>
    intro st h
    exact ih _ (timelineContiguous_applyOp st op h)

/-- The first sprite still sits at 0 after appending a material. -/
theorem firstStartsAtZero_addMaterialToTimeline (st : AppState) (material : Material)
    (h0 : firstStartsAtZero st.sprites) :
    firstStartsAtZero (addMaterialToTimeline st material).sprites := by
  show firstStartsAtZero (st.sprites ++ [_])
  cases hsp : st.sprites with
  | nil =>
    intro s hs
    simp only [List.nil_append, List.head?_cons, Option.mem_def, Option.some.injEq] at hs
    subst hs
    rfl
  | cons a rest =>
    intro s hs
    simp only [List.cons_append, List.head?_cons, Option.mem_def, Option.some.injEq] at hs
    subst hs
    rw [hsp] at h0
    exact h0 _ (by simp)

/-- The first sprite still sits at 0 after `splitClip`. -/
theorem firstStartsAtZero_splitClip (st : AppState)
    (h0 : firstStartsAtZero st.sprites) :
    firstStartsAtZero (splitClip st).1.sprites := by
  cases hsel : st.selectedSpriteId with
  | none => rw [splitClip_eq_noSelection st hsel]; exact h0
  | some sel =>
    cases hfind : st.sprites.find? (fun s => s.id == sel) with
    | none => rw [splitClip_eq_notFound st sel hsel hfind]; exact h0
    | some sp =>
      by_cases hg : st.currentTime ≤ sp.startTime ∨
        sp.startTime + sp.duration ≤ st.currentTime
      · rw [splitClip_eq_invalid st sel sp hsel hfind hg]; exact h0
      · rw [splitClip_eq_success st sel sp hsel hfind hg]
        obtain ⟨pre, post, hdec, hspid, hpre⟩ := find?_decomp sel sp st.sprites hfind
        show firstStartsAtZero (replaceFirstByTwo sel _ _ st.sprites)
        rw [hdec, replaceFirstByTwo_first sel _ _ pre sp post hspid hpre]
        rw [hdec] at h0
        cases pre with
        | nil =>
          intro s hs
          simp only [List.nil_append, List.head?_cons, Option.mem_def,
            Option.some.injEq] at hs
          subst hs
          show sp.startTime = 0
          exact h0 sp (by simp)
        | cons p ps =>
          intro s hs
          simp only [List.cons_append, List.head?_cons, Option.mem_def,
            Option.some.injEq] at hs
          subst hs
          exact h0 _ (by simp)

/-- The first sprite still sits at 0 after `deleteClip` (this needs I2: when
the first sprite is deleted, the new first sprite is the old second one
shifted back by exactly its own predecessor's duration). -/
theorem firstStartsAtZero_deleteClip (st : AppState)
    (hc : timelineContiguous st.sprites)
    (h0 : firstStartsAtZero st.sprites) :
    firstStartsAtZero (deleteClip st).sprites := by
  cases hsel : st.selectedSpriteId with
  | none => rw [deleteClip_eq_noSelection st hsel]; exact h0
  | some sel =>
    cases hfind : st.sprites.find? (fun s => s.id == sel) with
    | none => rw [deleteClip_eq_notFound st sel hsel hfind]; exact h0
    | some sp =>
      rw [deleteClip_eq_success st sel sp hsel hfind]
      obtain ⟨pre, post, hdec, hspid, hpre⟩ := find?_decomp sel sp st.sprites hfind
      show firstStartsAtZero (removeAndShift sel sp.duration st.sprites)
      rw [hdec, removeAndShift_first sel sp.duration pre sp post hspid hpre]
      rw [hdec] at hc h0
      cases pre with
      | nil =>
        cases post with
        | nil =>
          intro s hs
          simp at hs
        | cons q qs =>
          intro s hs
          simp only [List.nil_append, List.map_cons, List.head?_cons,
            Option.mem_def, Option.some.injEq] at hs
          subst hs
          have hsp0 : sp.startTime = 0 := h0 sp (by simp)
          have hlink : q.startTime = sp.startTime + sp.duration :=
            (List.chain'_cons.mp hc).1
          show q.startTime - sp.duration = 0
          rw [hlink, hsp0]
          ring
      | cons p ps =>
        intro s hs
        simp only [List.cons_append, List.head?_cons, Option.mem_def,
          Option.some.injEq] at hs
        subst hs
        exact h0 _ (by simp)

/-- Both timeline invariants hold after any operation sequence from the
empty timeline: I2 and the fact that the first sprite starts at 0.  This is
what justifies reading `getTotalDuration` as the sum of all durations. -/
theorem runOps_invariants (ops : List EditOp) :
    timelineContiguous (runOps ops).sprites ∧
      firstStartsAtZero (runOps ops).sprites := by
  suffices h : ∀ st : AppState,
      timelineContiguous st.sprites → firstStartsAtZero st.sprites →
      timelineContiguous (ops.foldl applyOp st).sprites ∧
        firstStartsAtZero (ops.foldl applyOp st).sprites by
    exact h initialState List.chain'_nil (by intro s hs; simp [initialState] at hs)
  induction ops with
  | nil => intro st hc h0; exact ⟨hc, h0⟩
  | cons op rest ih =>
    intro st hc h0
    apply ih
    · exact timelineContiguous_applyOp st op hc
    · cases op with
      | append material => exact firstStartsAtZero_addMaterialToTimeline st material h0
      | split sel atTime =>
        exact firstStartsAtZero_splitClip
          { st with selectedSpriteId := some sel, currentTime := atTime } h0
      | delete sel =>
        exact firstStartsAtZero_deleteClip
          { st with selectedSpriteId := some sel } hc h0

/-- On a contiguous list, last.startTime + last.duration equals
head.startTime plus the sum of all durations. -/
theorem last_end_eq_head_add_sum (xs : List SpriteState) :
    List.Chain' contiguousRel xs →
    ∀ x ∈ xs.getLast?, ∀ h ∈ xs.head?,
      x.startTime + x.duration = h.startTime + (xs.map SpriteState.duration).sum := by
  induction xs with
  | nil =>
    intro _ x hx
    simp at hx
  | cons a rest ih =>
    intro hc x hx h hh
    simp only [List.head?_cons, Option.mem_def, Option.some.injEq] at hh
    subst hh
    cases rest with
    | nil =>
      simp only [List.getLast?_singleton, Option.mem_def, Option.some.injEq] at hx
      subst hx
      simp
    | cons b rest2 =>
      rw [List.chain'_cons] at hc
      have hx' : x ∈ (b :: rest2).getLast? := by
        rw [Option.mem_def] at hx ⊢
        rwa [List.getLast?_cons_cons] at hx
      have hrec := ih hc.2 x hx' b (by simp)
      rw [hrec]
      have hb : b.startTime = a.startTime + a.duration := hc.1
      rw [hb]
      simp only [List.map_cons, List.sum_cons]
      ring

/-- Function `getTotalDuration` equals the sum of all sprite durations on any state
satisfying the timeline invariants. -/
theorem getTotalDuration_eq_sum (st : AppState)
    (hc : timelineContiguous st.sprites) (h0 : firstStartsAtZero st.sprites) :
    getTotalDuration st = (st.sprites.map SpriteState.duration).sum := by
  cases hxs : st.sprites with
  | nil => simp [getTotalDuration, hxs]
  | cons a rest =>
    obtain ⟨x, hx⟩ : ∃ x, (a :: rest).getLast? = some x := by
      cases hlast : (a :: rest).getLast? with
      | none => exact absurd hlast (by simp [List.getLast?_isSome])
      | some y => exact ⟨y, rfl⟩
    have ha : a.startTime = 0 := by
      rw [hxs] at h0
      exact h0 a (by simp)
    have hsum := last_end_eq_head_add_sum (a :: rest) (hxs ▸ hc) x hx a (by simp)
    simp only [getTotalDuration, hxs, hx]
    rw [hsum, ha, zero_add]

/-- C5: `addMaterialToTimeline` appends exactly one sprite placed at
`startTime = getTotalDuration st` with `sourceOffset = 0` and
`duration = material.duration`; and on invariant-satisfying states
`getTotalDuration` is the sum of all sprite durations (equivalently
`startTime + duration` of the last sprite, which is how the source computes
it), and 0 on the empty timeline. -/
theorem append_totalDuration_spec (st : AppState) (material : Material)
    (hc : timelineContiguous st.sprites) (h0 : firstStartsAtZero st.sprites) :
    (∃ s : SpriteState,
        (addMaterialToTimeline st material).sprites = st.sprites ++ [s] ∧
        s.startTime = getTotalDuration st ∧
        s.sourceOffset = 0 ∧
        s.duration = material.duration) ∧
    getTotalDuration st = (st.sprites.map SpriteState.duration).sum ∧
    (st.sprites = [] → getTotalDuration st = 0) := by
  refine ⟨⟨_, rfl, rfl, rfl, rfl⟩, getTotalDuration_eq_sum st hc h0, ?_⟩
  intro h
  simp [getTotalDuration, h]

/-- Function `findActiveSprite` only returns sprites whose half-open interval
contains the queried time. -/
theorem findActiveSprite_interval (sprites : List SpriteState) (t : ℚ)
    (s : SpriteState) (h : findActiveSprite sprites t = some s) :
    s.startTime ≤ t ∧ t < s.startTime + s.duration := by
  have h' := @List.find?_some SpriteState
    (fun x : SpriteState => decide (x.startTime ≤ t ∧ t < x.startTime + x.duration))
    s sprites h
  exact of_decide_eq_true h'

/-- Function `findActiveSprite` only returns sprites of the list. -/
theorem findActiveSprite_mem (sprites : List SpriteState) (t : ℚ)
    (s : SpriteState) (h : findActiveSprite sprites t = some s) :
    s ∈ sprites :=
  List.mem_of_find?_eq_some h

/-- C6: on a playback tick with an active sprite, the virtual clock advances
by the elapsed delta (`deltaMs * 1000`, microseconds) multiplied by the
playbackRate of the sprite active at the current virtual time; the decode
time then requested from the source is
`sourceTime = sourceOffset + (virtualTime - startTime) * playbackRate` of the
sprite active at the advanced virtual time, and active sprites are exactly
the ones whose half-open interval `[startTime, startTime + duration)`
contains the respective virtual time. -/
theorem playback_tick_spec (st : AppState) (deltaMs : ℚ) (s a : SpriteState)
    (hplay : st.isPlaying = true)
    (hs : findActiveSprite st.sprites st.currentTime = some s)
    (hlt : st.currentTime + deltaMs * 1000 * s.playbackRate < getTotalDuration st)
    (ha : findActiveSprite st.sprites
      (st.currentTime + deltaMs * 1000 * s.playbackRate) = some a) :
    (playbackTick st deltaMs).1.currentTime =
      st.currentTime + deltaMs * 1000 * s.playbackRate ∧
    (playbackTick st deltaMs).2 =
      some (a.sourceOffset +
        ((playbackTick st deltaMs).1.currentTime - a.startTime) * a.playbackRate) ∧
    s ∈ st.sprites ∧
    s.startTime ≤ st.currentTime ∧ st.currentTime < s.startTime + s.duration ∧
    a ∈ st.sprites ∧
    a.startTime ≤ (playbackTick st deltaMs).1.currentTime ∧
    (playbackTick st deltaMs).1.currentTime < a.startTime + a.duration := by
  have hnp : ¬(st.isPlaying = false) := by
    rw [hplay]
    simp
  have heq : playbackTick st deltaMs =
      ({ st with currentTime := st.currentTime + deltaMs * 1000 * s.playbackRate },
       some (a.sourceOffset +
         ((st.currentTime + deltaMs * 1000 * s.playbackRate) - a.startTime) *
           a.playbackRate)) := by
    simp only [playbackTick, if_neg hnp, hs, if_neg (not_le.mpr hlt), ha]
  obtain ⟨hs1, hs2⟩ := findActiveSprite_interval st.sprites st.currentTime s hs
  obtain ⟨ha1, ha2⟩ := findActiveSprite_interval st.sprites _ a ha
  refine ⟨?_, ?_, findActiveSprite_mem _ _ _ hs, hs1, hs2,
    findActiveSprite_mem _ _ _ ha, ?_, ?_⟩
  · rw [heq]
  · rw [heq]
  · rw [heq]
    exact ha1
  · rw [heq]
    exact ha2

/-- A zero-length buffer is skipped and leaves the cursor unchanged. -/
theorem playAudioSamples_zero (nextAudioTime : ℚ) (c : AudioChunk)
    (h : c.length = 0) :
    playAudioSamples nextAudioTime c = (none, nextAudioTime) := by
  simp only [playAudioSamples, if_pos h]

/-- A nonempty buffer is scheduled at `max(nextAudioTime, now)` and advances
the cursor by its duration. -/
theorem playAudioSamples_pos (nextAudioTime : ℚ) (c : AudioChunk)
    (h : ¬ c.length = 0) :
    playAudioSamples nextAudioTime c =
      (some (max nextAudioTime c.now, (c.length : ℚ) / (c.sampleRate : ℚ)),
       max nextAudioTime c.now + (c.length : ℚ) / (c.sampleRate : ℚ)) := by
  simp only [playAudioSamples, if_neg h]

/-- The `scheduleAll` equation for a skipped zero-length chunk. -/
theorem scheduleAll_zero (nextAudioTime : ℚ) (c : AudioChunk)
    (rest : List AudioChunk) (h : c.length = 0) :
    scheduleAll nextAudioTime (c :: rest) = scheduleAll nextAudioTime rest := by
  rw [scheduleAll, playAudioSamples_zero nextAudioTime c h]

/-- The `scheduleAll` equation for a scheduled chunk. -/
theorem scheduleAll_pos (nextAudioTime : ℚ) (c : AudioChunk)
    (rest : List AudioChunk) (h : ¬ c.length = 0) :
    scheduleAll nextAudioTime (c :: rest) =
      (max nextAudioTime c.now, (c.length : ℚ) / (c.sampleRate : ℚ)) ::
        scheduleAll
          (max nextAudioTime c.now + (c.length : ℚ) / (c.sampleRate : ℚ)) rest := by
  rw [scheduleAll, playAudioSamples_pos nextAudioTime c h]

/-- Every buffer scheduled by `scheduleAll` starts no earlier than the
cursor value at entry. -/
theorem scheduleAll_head_ge (chunks : List AudioChunk) :
    ∀ nextAudioTime : ℚ, ∀ y ∈ (scheduleAll nextAudioTime chunks).head?,
      nextAudioTime ≤ y.1 := by
  induction chunks with
  | nil =>
    intro next y hy
    simp [scheduleAll] at hy
  | cons c rest ih =>
    intro next y hy
    by_cases h : c.length = 0
    · rw [scheduleAll_zero next c rest h] at hy
      exact ih next y hy
    · rw [scheduleAll_pos next c rest h] at hy
      simp only [List.head?_cons, Option.mem_def, Option.some.injEq] at hy
      subst hy
      exact le_max_left _ _

/-- Every scheduled duration is nonnegative (`length / sampleRate` on casts
of naturals). -/
theorem scheduleAll_dur_nonneg (chunks : List AudioChunk) :
    ∀ nextAudioTime : ℚ, ∀ y ∈ scheduleAll nextAudioTime chunks, 0 ≤ y.2 := by
  induction chunks with
  | nil =>
    intro next y hy
    simp [scheduleAll] at hy
  | cons c rest ih =>
    intro next y hy
    by_cases h : c.length = 0
    · rw [scheduleAll_zero next c rest h] at hy
      exact ih next y hy
    · rw [scheduleAll_pos next c rest h] at hy
      rcases List.mem_cons.mp hy with h1 | h2
      · subst h1
        exact div_nonneg (by positivity) (by positivity)
      · exact ih _ y h2

/-- C7: the buffers scheduled by successive `playAudioSamples` calls never
overlap and start at non-decreasing times: in the (start, duration) sequence
produced by `scheduleAll`, each buffer's start is at least the previous
buffer's start plus the previous buffer's duration, and in particular the
starts are monotonically non-decreasing. -/
theorem audio_no_overlap (nextAudioTime : ℚ) (chunks : List AudioChunk) :
    List.Chain' (fun x y : ℚ × ℚ => x.1 + x.2 ≤ y.1)
      (scheduleAll nextAudioTime chunks) ∧
    List.Chain' (fun x y : ℚ × ℚ => x.1 ≤ y.1)
      (scheduleAll nextAudioTime chunks) := by
  have hchain : ∀ (l : List AudioChunk) (next : ℚ),
      List.Chain' (fun x y : ℚ × ℚ => x.1 + x.2 ≤ y.1) (scheduleAll next l) := by
    intro l
    induction l with
    | nil =>
      intro next
      exact List.chain'_nil
    | cons c rest ih =>
      intro next
      by_cases h : c.length = 0
      · rw [scheduleAll_zero next c rest h]
        exact ih next
      · rw [scheduleAll_pos next c rest h]
        rw [List.chain'_cons']
        exact ⟨fun y hy => scheduleAll_head_ge rest _ y hy, ih _⟩
  have hchain2 : ∀ (l : List AudioChunk) (next : ℚ),
      List.Chain' (fun x y : ℚ × ℚ => x.1 ≤ y.1) (scheduleAll next l) := by
    intro l
    induction l with
    | nil =>
      intro next
      exact List.chain'_nil
    | cons c rest ih =>
      intro next
      by_cases h : c.length = 0
      · rw [scheduleAll_zero next c rest h]
        exact ih next
      · rw [scheduleAll_pos next c rest h]
        rw [List.chain'_cons']
        refine ⟨?_, ih _⟩
        intro y hy
        have h1 := scheduleAll_head_ge rest _ y hy
        have h2 : (0:ℚ) ≤ (c.length : ℚ) / (c.sampleRate : ℚ) :=
          div_nonneg (by positivity) (by positivity)
        show max next c.now ≤ y.1
        linarith
  exact ⟨hchain chunks nextAudioTime, hchain2 chunks nextAudioTime⟩

/-- The string built by `buildFilterString` is empty exactly when no filter
component is enabled, i.e. exactly when `hasActiveFilters` is false. -/
theorem buildFilterSegments_eq_nil_iff (f : FilterSettings) :
    buildFilterSegments f = [] ↔ hasActiveFilters f = false := by
  unfold buildFilterSegments hasActiveFilters
  split_ifs with h1 h2 h3 h4 h5 <;> simp_all

/-- Function `applyFiltersToClip` attaches its interceptor iff the filter string is
nonempty, which agrees with `hasActiveFilters` — so the wrapped flag computed
by the export loop equals `hasActiveFilters`. -/
theorem exportWrapped_eq (f : FilterSettings) :
    (hasActiveFilters f && !(buildFilterSegments f).isEmpty) = hasActiveFilters f := by
  cases hf : hasActiveFilters f with
  | false => simp
  | true =>
    have hne : buildFilterSegments f ≠ [] := by
      intro hnil
      rw [(buildFilterSegments_eq_nil_iff f).mp hnil] at hf
      cases hf
    simp [List.isEmpty_iff, hne]

/-- The per-sprite export contract of C8, relating a registered combinator
entry to the timeline sprite it came from: same offset/duration/opacity; the
interceptor wrapping agrees with `hasActiveFilters`; the registered handle is
not any preview-bound handle of the timeline; the clip is a fresh clone iff
filters are active, and the sprite's own clip otherwise. -/
def ExportMatches (all : List SpriteState) (e : ExportEntry) (s : SpriteState) : Prop :=
  e.offset = s.sourceOffset ∧
  e.duration = s.duration ∧
  e.opacity = s.opacity ∧
  e.wrapped = hasActiveFilters s.filters ∧
  (∀ p ∈ all, e.handleId ≠ p.handleId) ∧
  (hasActiveFilters s.filters = true → ∀ p ∈ all, e.clipId ≠ p.clipId) ∧
  (hasActiveFilters s.filters = false → e.clipId = s.clipId)

/-- The `exportSprites` equation on a sprite with active filters: the clip is the
freshly cloned `nid`, the handle the freshly created `nid + 1`. -/
theorem exportSprites_cons_pos (nid : ℕ) (s : SpriteState) (rest : List SpriteState)
    (hf : hasActiveFilters s.filters = true) :
    exportSprites nid (s :: rest) =
      (({ handleId := nid + 1
          clipId := nid
          wrapped := hasActiveFilters s.filters && !(buildFilterSegments s.filters).isEmpty
          offset := s.sourceOffset
          duration := s.duration
          opacity := s.opacity } : ExportEntry)
        :: (exportSprites (nid + 1 + 1) rest).1,
       (exportSprites (nid + 1 + 1) rest).2) := by
  simp only [exportSprites, hf, if_true]

/-- The `exportSprites` equation on a sprite without active filters: the sprite's
own clip is used untouched, the handle is the freshly created `nid`. -/
theorem exportSprites_cons_neg (nid : ℕ) (s : SpriteState) (rest : List SpriteState)
    (hf : hasActiveFilters s.filters = false) :
    exportSprites nid (s :: rest) =
      (({ handleId := nid
          clipId := s.clipId
          wrapped := hasActiveFilters s.filters && !(buildFilterSegments s.filters).isEmpty
          offset := s.sourceOffset
          duration := s.duration
          opacity := s.opacity } : ExportEntry)
        :: (exportSprites (nid + 1) rest).1,
       (exportSprites (nid + 1) rest).2) := by
  simp only [exportSprites, hf, if_false, Bool.false_eq_true]

/-- Induction core for C8, generalizing the fresh-id supply. -/
theorem exportSprites_spec_aux (all : List SpriteState) (bound : ℕ)
    (hall : ∀ s ∈ all, s.handleId < bound ∧ s.clipId < bound) :
    ∀ (l : List SpriteState) (nid : ℕ), bound ≤ nid →
      List.Forall₂ (ExportMatches all) (exportSprites nid l).1 l := by
  intro l
  induction l with
  | nil =>
    intro nid _
    exact List.Forall₂.nil
  | cons s rest ih =>
    intro nid hnid
    by_cases hf : hasActiveFilters s.filters = true
    · rw [exportSprites_cons_pos nid s rest hf]
      refine List.Forall₂.cons ?_ (ih (nid + 1 + 1) (by omega))
      refine ⟨rfl, rfl, rfl, exportWrapped_eq s.filters, ?_, ?_, ?_⟩
      · intro p hp
        have hb := (hall p hp).1
        show nid + 1 ≠ p.handleId
        omega
      · intro _ p hp
        have hb := (hall p hp).2
        show nid ≠ p.clipId
        omega
      · intro hcon
        rw [hcon] at hf
        cases hf
    · have hf' : hasActiveFilters s.filters = false := by
        cases h : hasActiveFilters s.filters with
        | false => rfl
        | true => exact absurd h hf
      rw [exportSprites_cons_neg nid s rest hf']
      refine List.Forall₂.cons ?_ (ih (nid + 1) (by omega))
      refine ⟨rfl, rfl, rfl, exportWrapped_eq s.filters, ?_, ?_, ?_⟩
      · intro p hp
        have hb := (hall p hp).1
        show nid ≠ p.handleId
        omega
      · intro hcon
        rw [hcon] at hf'
        cases hf'
      · intro _
        rfl

/-- C8: running the export loop over the timeline sprites with a fresh-id
supply above every existing object registers, in timeline sequence order,
one new compositing handle per sprite: each registered handle is a fresh
instance distinct from every preview-bound handle, configured with the same
sourceOffset, duration and opacity as its sprite; its clip is a freshly
cloned one wrapped with the filter-interception step iff the sprite has a
non-default filter setting, and the material's own decode handle unwrapped
otherwise. -/
theorem export_spec (sprites : List SpriteState) (nid : ℕ)
    (hfresh : ∀ s ∈ sprites, s.handleId < nid ∧ s.clipId < nid) :
    List.Forall₂ (ExportMatches sprites) (exportSprites nid sprites).1 sprites :=
  exportSprites_spec_aux sprites nid hfresh sprites nid le_rfl

/-- C9: the per-chunk progress reported during the export stream-reading
phase is monotonically non-decreasing in the number of chunks read and never
exceeds 99 (strictly less than the 100 reported only after the stream
completes). -/
theorem export_chunk_progress (m n : ℕ) (h : m ≤ n) :
    chunkProgress m ≤ chunkProgress n ∧ chunkProgress n ≤ 99 := by
  constructor
  · unfold chunkProgress
    have hc : (m : ℚ) ≤ (n : ℚ) := by exact_mod_cast h
    have h' : (m : ℚ) / 100 * 49 ≤ (n : ℚ) / 100 * 49 := by linarith
    exact add_le_add_left (min_le_min h' le_rfl) 50
  · unfold chunkProgress
    have hmin : min ((n : ℚ) / 100 * 49) 49 ≤ 49 := min_le_right _ _
    linarith

/-- The filter record written for any filter name has at most one
non-default setting. -/
theorem applyFilterNamed_nonDefaultCount (filterName : String) :
    nonDefaultCount (applyFilterNamed filterName) ≤ 1 := by
  unfold applyFilterNamed
  split_ifs <;> simp [nonDefaultCount, defaultFilters] <;> norm_num

/-- Function `updateFirst` only produces elements of the input list or `f`-images of
elements of the input list. -/
theorem updateFirst_mem (p : SpriteState → Bool) (f : SpriteState → SpriteState) :
    ∀ (l : List SpriteState) (s : SpriteState), s ∈ updateFirst p f l →
      s ∈ l ∨ ∃ x ∈ l, s = f x := by
  intro l
  induction l with
  | nil =>
    intro s hs
    simp [updateFirst] at hs
  | cons x rest ih =>
    intro s hs
    rw [updateFirst] at hs
    by_cases hx : p x
    · rw [if_pos hx] at hs
      rcases List.mem_cons.mp hs with h1 | h2
      · exact Or.inr ⟨x, List.mem_cons_self x rest, h1⟩
      · exact Or.inl (List.mem_cons_of_mem x h2)
    · rw [if_neg hx] at hs
      rcases List.mem_cons.mp hs with h1 | h2
      · exact Or.inl (h1 ▸ List.mem_cons_self x rest)
      · rcases ih s h2 with h3 | ⟨y, hy, hyy⟩
        · exact Or.inl (List.mem_cons_of_mem x h3)
        · exact Or.inr ⟨y, List.mem_cons_of_mem x hy, hyy⟩

/-- C10: the set-filter operation first resets all five filter settings to
their defaults and then enables at most the one named filter, so for every
filter name the written record has at most one non-default setting, and
after any `applyFilterToSelectedSprite` call every sprite either is one of
the previous sprites (untouched) or carries that freshly written record —
filters are mutually exclusive per sprite rather than freely combinable. -/
theorem filter_exclusive (st : AppState) (filterName : String) :
    nonDefaultCount (applyFilterNamed filterName) ≤ 1 ∧
    ∀ s ∈ (applyFilterToSelectedSprite st filterName).sprites,
      s ∈ st.sprites ∨
        (s.filters = applyFilterNamed filterName ∧ nonDefaultCount s.filters ≤ 1) := by
  refine ⟨applyFilterNamed_nonDefaultCount filterName, ?_⟩
  cases hsel : st.selectedSpriteId with
  | none =>
    intro s hs
    rw [applyFilterToSelectedSprite, hsel] at hs
    exact Or.inl hs
  | some sel =>
    intro s hs
    rw [applyFilterToSelectedSprite, hsel] at hs
    rcases updateFirst_mem _ _ st.sprites s hs with h | ⟨x, _, rfl⟩
    · exact Or.inl h
    · refine Or.inr ⟨rfl, ?_⟩
      show nonDefaultCount (applyFilterNamed filterName) ≤ 1
      exact applyFilterNamed_nonDefaultCount filterName

/-- A concrete sprite for witness scenarios: id `i`, clip identity `i`,
handle identity `10 + i`, default filters, rate 1, opacity 1. -/
def sampleSprite (i : ℕ) (start dur off : ℚ) : SpriteState :=
  { id := i
    materialId := 0
    clipId := i
    handleId := 10 + i
    startTime := start
    duration := dur
    sourceOffset := off
    filters := defaultFilters
    playbackRate := 1
    opacity := 1 }

/-- One 10 s sprite selected with the playhead at 4 s (spec scenario). -/
def splitWitnessState : AppState :=
  { sprites := [sampleSprite 0 0 10000000 0]
    selectedSpriteId := some 0
    currentTime := 4000000
    isPlaying := false
    nextId := 20 }

theorem split_spec_witness :
    ∃ s1 s2 : SpriteState,
      (splitClip splitWitnessState).2 = none ∧
      (splitClip splitWitnessState).1.sprites = [s1, s2] ∧
      s1.startTime = (sampleSprite 0 0 10000000 0).startTime ∧
      s1.sourceOffset = (sampleSprite 0 0 10000000 0).sourceOffset ∧
      s1.duration = splitWitnessState.currentTime -
        (sampleSprite 0 0 10000000 0).startTime ∧
      s2.startTime = splitWitnessState.currentTime ∧
      s2.duration = (sampleSprite 0 0 10000000 0).duration -
        (splitWitnessState.currentTime - (sampleSprite 0 0 10000000 0).startTime) ∧
      s2.sourceOffset = (sampleSprite 0 0 10000000 0).sourceOffset +
        (splitWitnessState.currentTime - (sampleSprite 0 0 10000000 0).startTime) ∧
      s1.filters = (sampleSprite 0 0 10000000 0).filters ∧
      s2.filters = (sampleSprite 0 0 10000000 0).filters ∧
      s1.opacity = (sampleSprite 0 0 10000000 0).opacity ∧
      s2.opacity = (sampleSprite 0 0 10000000 0).opacity ∧
      s1.playbackRate = (sampleSprite 0 0 10000000 0).playbackRate ∧
      s2.playbackRate = (sampleSprite 0 0 10000000 0).playbackRate ∧
      s1.duration + s2.duration = (sampleSprite 0 0 10000000 0).duration ∧
      (splitClip splitWitnessState).1.selectedSpriteId = some s1.id :=
  split_spec splitWitnessState 0 [] [] (sampleSprite 0 0 10000000 0)
    rfl rfl rfl (fun x hx => absurd hx (List.not_mem_nil x))
    (by norm_num [sampleSprite, splitWitnessState])
    (by norm_num [sampleSprite, splitWitnessState])

/-- Three sprites of 3 s / 2 s / 4 s with the middle one selected
(spec scenario for delete). -/
def deleteWitnessState : AppState :=
  { sprites := [sampleSprite 0 0 3000000 0, sampleSprite 1 3000000 2000000 0,
      sampleSprite 2 5000000 4000000 0]
    selectedSpriteId := some 1
    currentTime := 0
    isPlaying := false
    nextId := 20 }

theorem delete_spec_witness :
    (deleteClip deleteWitnessState).sprites =
      [sampleSprite 0 0 3000000 0] ++
        [sampleSprite 2 5000000 4000000 0].map
          (shiftBack (sampleSprite 1 3000000 2000000 0).duration) ∧
    ∀ x : SpriteState,
      (shiftBack (sampleSprite 1 3000000 2000000 0).duration x).startTime =
        x.startTime - (sampleSprite 1 3000000 2000000 0).duration ∧
      (shiftBack (sampleSprite 1 3000000 2000000 0).duration x).duration = x.duration ∧
      (shiftBack (sampleSprite 1 3000000 2000000 0).duration x).sourceOffset =
        x.sourceOffset ∧
      (shiftBack (sampleSprite 1 3000000 2000000 0).duration x).filters = x.filters ∧
      (shiftBack (sampleSprite 1 3000000 2000000 0).duration x).playbackRate =
        x.playbackRate ∧
      (shiftBack (sampleSprite 1 3000000 2000000 0).duration x).opacity = x.opacity ∧
      (shiftBack (sampleSprite 1 3000000 2000000 0).duration x).id = x.id ∧
      (shiftBack (sampleSprite 1 3000000 2000000 0).duration x).materialId =
        x.materialId ∧
      (shiftBack (sampleSprite 1 3000000 2000000 0).duration x).clipId = x.clipId ∧
      (shiftBack (sampleSprite 1 3000000 2000000 0).duration x).handleId =
        x.handleId :=
  delete_spec deleteWitnessState 1 [sampleSprite 0 0 3000000 0]
    [sampleSprite 2 5000000 4000000 0] (sampleSprite 1 3000000 2000000 0)
    rfl rfl rfl (by decide)

/-- One 10 s sprite selected with the playhead exactly at its startTime. -/
def invalidSplitWitnessState : AppState :=
  { sprites := [sampleSprite 0 0 10000000 0]
    selectedSpriteId := some 0
    currentTime := 0
    isPlaying := false
    nextId := 20 }

theorem split_invalid_noop_witness :
    splitClip invalidSplitWitnessState =
      (invalidSplitWitnessState, some EditError.invalidSplitPoint) :=
  split_invalid_noop invalidSplitWitnessState 0 (sampleSprite 0 0 10000000 0)
    rfl rfl (Or.inl (by norm_num [sampleSprite, invalidSplitWitnessState]))

/-- Two contiguous sprites of 5 s and 3 s starting at 0. -/
def appendWitnessState : AppState :=
  { sprites := [sampleSprite 0 0 5000000 0, sampleSprite 1 5000000 3000000 0]
    selectedSpriteId := none
    currentTime := 0
    isPlaying := false
    nextId := 20 }

theorem append_totalDuration_spec_witness :
    (∃ s : SpriteState,
        (addMaterialToTimeline appendWitnessState
          { id := 7, clipId := 7, duration := 2000000 }).sprites =
          appendWitnessState.sprites ++ [s] ∧
        s.startTime = getTotalDuration appendWitnessState ∧
        s.sourceOffset = 0 ∧
        s.duration = ({ id := 7, clipId := 7, duration := 2000000 } : Material).duration) ∧
    getTotalDuration appendWitnessState =
      (appendWitnessState.sprites.map SpriteState.duration).sum ∧
    (appendWitnessState.sprites = [] → getTotalDuration appendWitnessState = 0) :=
  append_totalDuration_spec appendWitnessState
    { id := 7, clipId := 7, duration := 2000000 }
    (by
      refine List.chain'_cons.mpr ⟨?_, List.chain'_singleton _⟩
      norm_num [contiguousRel, sampleSprite])
    (by
      intro s hs
      simp only [appendWitnessState, List.head?_cons, Option.mem_def,
        Option.some.injEq] at hs
      subst hs
      rfl)

/-- One 10 s sprite playing at rate 1, virtual clock at 1 s. -/
def playbackWitnessState : AppState :=
  { sprites := [sampleSprite 0 0 10000000 0]
    selectedSpriteId := none
    currentTime := 1000000
    isPlaying := true
    nextId := 20 }

theorem playback_tick_spec_witness :
    (playbackTick playbackWitnessState 1).1.currentTime =
      playbackWitnessState.currentTime +
        1 * 1000 * (sampleSprite 0 0 10000000 0).playbackRate ∧
    (playbackTick playbackWitnessState 1).2 =
      some ((sampleSprite 0 0 10000000 0).sourceOffset +
        ((playbackTick playbackWitnessState 1).1.currentTime -
          (sampleSprite 0 0 10000000 0).startTime) *
          (sampleSprite 0 0 10000000 0).playbackRate) ∧
    sampleSprite 0 0 10000000 0 ∈ playbackWitnessState.sprites ∧
    (sampleSprite 0 0 10000000 0).startTime ≤ playbackWitnessState.currentTime ∧
    playbackWitnessState.currentTime <
      (sampleSprite 0 0 10000000 0).startTime +
        (sampleSprite 0 0 10000000 0).duration ∧
    sampleSprite 0 0 10000000 0 ∈ playbackWitnessState.sprites ∧
    (sampleSprite 0 0 10000000 0).startTime ≤
      (playbackTick playbackWitnessState 1).1.currentTime ∧
    (playbackTick playbackWitnessState 1).1.currentTime <
      (sampleSprite 0 0 10000000 0).startTime +
        (sampleSprite 0 0 10000000 0).duration :=
  playback_tick_spec playbackWitnessState 1 (sampleSprite 0 0 10000000 0)
    (sampleSprite 0 0 10000000 0) rfl
    (by norm_num [findActiveSprite, List.find?, sampleSprite, playbackWitnessState])
    (by norm_num [getTotalDuration, sampleSprite, playbackWitnessState])
    (by norm_num [findActiveSprite, List.find?, sampleSprite, playbackWitnessState])

/-- A sprite with the grayscale filter enabled, for the export witness. -/
def filteredSprite : SpriteState :=
  { sampleSprite 3 0 1000000 0 with
      filters := { defaultFilters with grayscale := true } }

theorem export_spec_witness :
    List.Forall₂
      (ExportMatches [filteredSprite, sampleSprite 4 1000000 2000000 0])
      (exportSprites 100 [filteredSprite, sampleSprite 4 1000000 2000000 0]).1
      [filteredSprite, sampleSprite 4 1000000 2000000 0] :=
  export_spec [filteredSprite, sampleSprite 4 1000000 2000000 0] 100 (by decide)

theorem export_chunk_progress_witness :
    chunkProgress 3 ≤ chunkProgress 50 ∧ chunkProgress 50 ≤ 99 :=
  export_chunk_progress 3 50 (by norm_num)

/-- One sprite selected, for the set-filter witness. -/
def filterWitnessState : AppState :=
  { sprites := [sampleSprite 0 0 10000000 0]
    selectedSpriteId := some 0
    currentTime := 0
    isPlaying := false
    nextId := 20 }

theorem filter_exclusive_witness :
    nonDefaultCount (applyFilterNamed "grayscale") ≤ 1 ∧
    (({ sampleSprite 0 0 10000000 0 with
        filters := applyFilterNamed "grayscale" } : SpriteState) ∈
          filterWitnessState.sprites ∨
      (({ sampleSprite 0 0 10000000 0 with
          filters := applyFilterNamed "grayscale" } : SpriteState).filters =
            applyFilterNamed "grayscale" ∧
        nonDefaultCount ({ sampleSprite 0 0 10000000 0 with
          filters := applyFilterNamed "grayscale" } : SpriteState).filters ≤ 1)) :=
  ⟨(filter_exclusive filterWitnessState "grayscale").1,
    (filter_exclusive filterWitnessState "grayscale").2 _
      (by
        show _ ∈ [({ sampleSprite 0 0 10000000 0 with
          filters := applyFilterNamed "grayscale" } : SpriteState)]
        exact List.mem_singleton.mpr rfl)⟩

end AutoCut
